import Mathlib

/-!
# Verification of the health-scribe-gpt journal-analysis engine

Shallow embedding, in Lean 4, of the analysis engine of the
health-scribe-gpt repository, together with proofs about the embedded
functions.

Embedded source files:
* `src/app/api/analyze/route.js` (rate limiter, retry wrapper, batch
  aggregation; the batch `POST` handler lives in the dashboard bundle).
* `src/lib/analyzeJournal.js` — the bundle contains two concatenated
  revisions of this module; we embed the later revision (the one with the
  enrichment cache, `null` defaults for sleep/exercise/energy and
  first-match-wins keyword loops), which is the revision the specification
  describes.
* `src/app/reports/page.js` (consistency score, sleep analysis, health
  score).

Modelling conventions:
* JavaScript numbers are modelled as exact rationals (`ℚ`); the only
  IEEE-754 special behaviour the engine relies on — division by zero
  inside `calculateTrend` producing `±Infinity`/`NaN` — is translated
  explicitly at its single occurrence.
* Timestamps (`Date.now()`) are naturals counting milliseconds.
* Regular-expression matching is embedded by a hand-rolled ordered
  backtracking matcher specialised to the exact patterns of the source,
  with the JS semantics: leftmost start position wins, alternatives are
  tried in written order, `*`/`+`/`?` are greedy.  Character classes use
  their ASCII meaning (`\s`, `\d`, `\w`, `/i`-folding).
-/

/-! ## Trend classification (`calculateTrend`, dashboard bundle) -/

/-- The three trend labels returned by `calculateTrend`. -/
inductive Trend
  | improving
  | declining
  | stable
  deriving DecidableEq, Repr

/-- `average(arr)`: `arr.reduce((a, b) => a + b, 0) / arr.length`.
(For the empty list JS yields `NaN`; the function is only ever applied to
nonempty halves, where the `ℚ` value agrees with JS.) -/
def average (arr : List ℚ) : ℚ :=
  arr.sum / arr.length

/-- The `changePct` expression of `calculateTrend`:
`((secondAvg - firstAvg) / firstAvg) * 100` for the floor-length first
half and remainder second half. -/
def changePct (values : List ℚ) : ℚ :=
  let firstAvg := average (values.take (values.length / 2))
  let secondAvg := average (values.drop (values.length / 2))
  (secondAvg - firstAvg) / firstAvg * 100

/-- `calculateTrend(values)` from `src/app/api/analyze/route.js` (batch
revision).  When `firstAvg = 0`, JS computes `changePct` as `+Infinity`
(second average positive), `-Infinity` (negative) or `NaN` (zero), so the
comparisons `> 10` / `< -10` classify those cases as
improving/declining/stable respectively; that float behaviour is spelled
out here because `ℚ` has no infinities. -/
def calculateTrend (values : List ℚ) : Trend :=
  if values.length < 2 then .stable
  else
    let firstAvg := average (values.take (values.length / 2))
    let secondAvg := average (values.drop (values.length / 2))
    if firstAvg = 0 then
      if 0 < secondAvg then .improving
      else if secondAvg < 0 then .declining
      else .stable
    else
      let pct := (secondAvg - firstAvg) / firstAvg * 100
      if pct > 10 then .improving
      else if pct < -10 then .declining
      else .stable

/-! ## Rate limiter (inline in the batch `POST` handler) -/

/-- `RATE_LIMIT = 10` requests per minute. -/
def RATE_LIMIT : ℕ := 10

/-- `COOLDOWN = 60 * 1000` milliseconds. -/
def COOLDOWN : ℕ := 60 * 1000

/-- `Math.min(...arr)` for a list of timestamps (the empty case, which JS
maps to `Infinity`, is unreachable where this is used: the deny branch
guarantees at least `RATE_LIMIT` elements). -/
def jsMinList : List ℕ → ℕ
  | [] => 0
  | x :: xs => xs.foldl Nat.min x

/-- Outcome of one rate-limit check for a single caller: whether the
request was admitted, the `retryAfter` value reported on denial (seconds),
and the timestamp list stored back into `requestLog`. -/
structure AdmitResult where
  allowed : Bool
  retryAfter : ℕ
  log : List ℕ
  deriving DecidableEq, Repr

/-- The sliding-window admission check of the batch `POST` handler:
filter the caller's timestamps to the trailing `COOLDOWN` window; if at
least `RATE_LIMIT` remain, deny with
`retryAfter = Math.ceil((COOLDOWN - (now - oldest)) / 1000)` and leave the
log unchanged (the handler returns before writing); otherwise admit and
store the filtered list with `now` appended. -/
def admitRequest (timestamps : List ℕ) (now : ℕ) : AdmitResult :=
  let recentRequests := timestamps.filter (fun t => now - t < COOLDOWN)
  if RATE_LIMIT ≤ recentRequests.length then
    let oldestRequest := jsMinList recentRequests
    { allowed := false
      retryAfter := (COOLDOWN - (now - oldestRequest) + 999) / 1000
      log := timestamps }
  else
    { allowed := true, retryAfter := 0, log := recentRequests ++ [now] }

/-- Sequentially feed a list of request instants for one caller through
`admitRequest`, starting from an empty log; returns the admission verdicts
in order and the final stored log. -/
def runAdmits (times : List ℕ) : List Bool × List ℕ :=
  times.foldl
    (fun acc t =>
      let r := admitRequest acc.2 t
      (acc.1 ++ [r.allowed], r.log))
    ([], [])

/-! ## Retry wrapper (`retryAnalysis`) -/

/-- Observable behaviour of one `retryAnalysis` run: the value returned or
error thrown, the number of calls made to `analyzeJournalEntry`, and the
backoff sleeps performed (in seconds, in order).  The error component is
an `Option` because JS would throw `undefined` (`none`) if the loop bound
were `0`. -/
structure RetryTrace (ε α : Type) where
  result : Except (Option ε) α
  calls : ℕ
  waits : List ℕ
  deriving Repr

/-- The `for (let i = 0; i < maxRetries; i++)` loop of `retryAnalysis`:
`fuel` is the number of remaining iterations, `i` the next attempt index
(and hence the number of calls made so far), `ws` the sleeps performed,
`last` the `lastError` variable.  After any failed attempt the code sleeps
`Math.pow(2, i) * 1000` ms, i.e. `2 ^ i` seconds. -/
def retryLoop (oracle : ℕ → Except ε α) :
    ℕ → ℕ → List ℕ → Option ε → RetryTrace ε α
  | 0, i, ws, last => ⟨.error last, i, ws⟩
  | fuel + 1, i, ws, _last =>
    match oracle i with
    | .ok a => ⟨.ok a, i + 1, ws⟩
    | .error e => retryLoop oracle fuel (i + 1) (ws ++ [2 ^ i]) (some e)

/-- `retryAnalysis(content, maxRetries = 2)`: the enrichment call is
abstracted as an oracle giving the outcome of each attempt. -/
def retryAnalysis (oracle : ℕ → Except ε α) (maxRetries : ℕ := 2) :
    RetryTrace ε α :=
  retryLoop oracle maxRetries 0 [] none

/-! ## Local extractor (`analyzeLocally`, cache-bearing revision)

The regular expressions of the source are embedded by an ordered
backtracking matcher specialised to their exact shape: alternatives tried
in written order, greedy `*`/`+`/`?`, leftmost start position wins, and
the `/i` flag realised by folding text characters to lower case (the
patterns themselves are written in lower case).  Character classes use
their ASCII meaning.  The trailing `s?` of `hours?` and the
`(?:ute)?s?` of `min(?:ute)?s?` are dropped: they follow the capture and
end the pattern, so they affect neither matching success nor the
captured number. -/

/-- JS `\s` (ASCII part). -/
def wsChar (c : Char) : Bool :=
  c = ' ' || c = '\t' || c = '\n' || c = '\r' || c = '\x0b' || c = '\x0c'

/-- JS `\d`. -/
def digitChar (c : Char) : Bool :=
  c.isDigit

/-- JS `\w` (ASCII): letters, digits, underscore. -/
def isWordChar (c : Char) : Bool :=
  c.isAlphanum || c = '_'

/-- Case-insensitive literal match at the head of `s`; returns the rest
on success.  The literal is given in lower case. -/
def matchLit : List Char → List Char → Option (List Char)
  | [], s => some s
  | _ :: _, [] => none
  | c :: cs, d :: ds => if d.toLower = c then matchLit cs ds else none

/-- A literal as a backtracking alternative: zero or one outcome. -/
def litK (lit : String) (s : List Char) : List (List Char) :=
  match matchLit lit.data s with
  | some r => [r]
  | none => []

/-- All splits of `s` into a prefix of `p`-characters and the rest, in
greedy (longest-prefix-first) order — the backtracking outcomes of a
greedy character-class `*`. -/
def greedySplits (p : Char → Bool) : List Char → List (List Char × List Char)
  | [] => [([], [])]
  | c :: cs =>
    if p c then
      ((greedySplits p cs).map fun q => (c :: q.1, q.2)) ++ [([], c :: cs)]
    else [([], c :: cs)]

/-- Backtracking outcomes of `\d+` (nonempty greedy digit prefix). -/
def digitSplits (s : List Char) : List (List Char × List Char) :=
  (greedySplits digitChar s).filter fun q => !q.1.isEmpty

/-- Backtracking outcomes of the optional fraction `(?:\.\d+)?`,
content-first (greedy `?`). -/
def fracSplits : List Char → List (List Char × List Char)
  | '.' :: rest =>
    ((digitSplits rest).map fun q => ('.' :: q.1, q.2)) ++ [([], '.' :: rest)]
  | s => [([], s)]

/-- Backtracking outcomes of the capture `(\d+(?:\.\d+)?)`: captured
characters paired with the rest. -/
def numSplits (s : List Char) : List (List Char × List Char) :=
  (digitSplits s).flatMap fun q =>
    (fracSplits q.2).map fun r => (q.1 ++ r.1, r.2)

/-- All matches of the sleep pattern
`(?:slept|sleep)\s*(?:for|about)?\s*(\d+(?:\.\d+)?)\s*hours?` anchored at
the start of `s`; captured numbers in backtracking priority order. -/
def sleepAt (s : List Char) : List (List Char) :=
  (litK "slept" s ++ litK "sleep" s).flatMap fun r1 =>
  (greedySplits wsChar r1).flatMap fun q2 =>
  (litK "for" q2.2 ++ litK "about" q2.2 ++ [q2.2]).flatMap fun r3 =>
  (greedySplits wsChar r3).flatMap fun q4 =>
  (numSplits q4.2).flatMap fun q5 =>
  (greedySplits wsChar q5.2).flatMap fun q6 =>
  (litK "hour" q6.2).map fun _ => q5.1

/-- All matches of the exercise pattern
`(?:exercised|worked out|ran|jogged|walked)\s*(?:for)?\s*(\d+)\s*(?:min(?:ute)?s?|hours?)`
anchored at the start of `s`. -/
def exerciseAt (s : List Char) : List (List Char) :=
  (litK "exercised" s ++ litK "worked out" s ++ litK "ran" s ++
      litK "jogged" s ++ litK "walked" s).flatMap fun r1 =>
  (greedySplits wsChar r1).flatMap fun q2 =>
  (litK "for" q2.2 ++ [q2.2]).flatMap fun r3 =>
  (greedySplits wsChar r3).flatMap fun q4 =>
  (digitSplits q4.2).flatMap fun q5 =>
  (greedySplits wsChar q5.2).flatMap fun q6 =>
  ((litK "min" q6.2 ++ litK "hour" q6.2).map fun _ => q5.1)

/-- `String.prototype.match` without `/g`: scan start positions left to
right, and at the first position with any match take the
highest-priority capture. -/
def firstMatchIn (attempt : List Char → List (List Char)) :
    List Char → Option (List Char)
  | [] => (attempt []).head?
  | c :: cs =>
    match (attempt (c :: cs)).head? with
    | some cap => some cap
    | none => firstMatchIn attempt cs

/-- Decimal digits to a natural number. -/
def digitsToNat (ds : List Char) : ℕ :=
  ds.foldl (fun acc c => acc * 10 + (c.toNat - '0'.toNat)) 0

/-- `parseFloat` on a captured `\d+(\.\d+)?` literal, modelled exactly
over `ℚ`. -/
def parseFloat (cap : List Char) : ℚ :=
  let intPart := cap.takeWhile digitChar
  match cap.dropWhile digitChar with
  | '.' :: frac =>
    (digitsToNat intPart : ℚ) + (digitsToNat frac : ℚ) / (10 : ℚ) ^ frac.length
  | _ => (digitsToNat intPart : ℚ)

/-- `parseInt` on a captured `\d+` literal. -/
def parseIntCap (cap : List Char) : ℤ :=
  digitsToNat cap

/-- Word-boundary occurrence test for one alternative at the current
position: the literal matches here, the previous character (if any) is
not a word character, and neither is the character following the match.
(Every keyword of the source starts and ends with a word character, so
`\b` reduces to exactly these two conditions.) -/
def wordAt (w : List Char) (prev : Option Char) (s : List Char) : Bool :=
  match matchLit w s with
  | some rest =>
    (match prev with | none => true | some c => !isWordChar c) &&
    (match rest with | [] => true | c :: _ => !isWordChar c)
  | none => false

/-- Scan all start positions for a `\b(?:w1|...|wn)\b` test. -/
def testWordsGo (ws : List (List Char)) : Option Char → List Char → Bool
  | _, [] => false
  | prev, c :: rest =>
    ws.any (fun w => wordAt w prev (c :: rest)) || testWordsGo ws (some c) rest

/-- `pattern.test(text)` for a word-boundary keyword alternation. -/
def testPattern (words : List String) (text : String) : Bool :=
  testWordsGo (words.map String.data) none text.data

/-- `patterns.mood.positive`. -/
def moodPositiveWords : List String :=
  ["happy", "great", "good", "excellent", "wonderful", "amazing",
   "fantastic"]

/-- `patterns.mood.negative`. -/
def moodNegativeWords : List String :=
  ["sad", "bad", "terrible", "awful", "depressed", "unhappy", "stressed"]

/-- `patterns.mood.neutral`. -/
def moodNeutralWords : List String :=
  ["okay", "fine", "alright", "normal"]

/-- `patterns.mood`, in `Object.entries` (insertion) order. -/
def moodPatterns : List (String × List String) :=
  [("positive", moodPositiveWords), ("negative", moodNegativeWords),
   ("neutral", moodNeutralWords)]

/-- `patterns.energy.high`. -/
def energyHighWords : List String :=
  ["energetic", "energized", "active", "full of energy"]

/-- `patterns.energy.low`. -/
def energyLowWords : List String :=
  ["tired", "exhausted", "fatigued", "low energy"]

/-- `patterns.energy.medium`. -/
def energyMediumWords : List String :=
  ["moderate energy", "decent energy"]

/-- `patterns.energy`, in `Object.entries` (insertion) order. -/
def energyPatterns : List (String × List String) :=
  [("high", energyHighWords), ("low", energyLowWords),
   ("medium", energyMediumWords)]

/-- `patterns.symptoms`, in `Object.entries` (insertion) order, with the
nested `(?:my|the)` alternation of the nausea pattern expanded. -/
def symptomPatterns : List (String × List String) :=
  [("headache", ["headache", "migraine"]),
   ("nausea", ["nausea", "nauseated", "sick to my stomach",
     "sick to the stomach"]),
   ("pain", ["pain", "ache", "sore"]),
   ("anxiety", ["anxiety", "anxious", "worried", "stress"]),
   ("fatigue", ["fatigue", "exhaustion", "tired"])]

/-- The `for … of Object.entries(...)` loop with `break`: the tag of the
first pattern whose test succeeds. -/
def firstMatchOf (patterns : List (String × List String)) (text : String) :
    Option String :=
  match patterns.find? (fun p => testPattern p.2 text) with
  | some p => some p.1
  | none => none

/-- The `Metrics` record produced by `analyzeLocally` (cache-bearing
revision: sleep/exercise/energy default to `null`). -/
structure Metrics where
  sleep : Option ℚ
  exercise : Option ℤ
  mood : String
  energy : Option String
  symptoms : List String
  timestamp : ℕ
  deriving Repr

/-- `analyzeLocally(entry)`; the wall clock (`Date.now()`) is passed
explicitly. -/
def analyzeLocally (entry : String) (now : ℕ) : Metrics :=
  let lowerEntry := entry.toLower
  { sleep := (firstMatchIn sleepAt entry.data).map parseFloat
    exercise := (firstMatchIn exerciseAt entry.data).map parseIntCap
    mood := (firstMatchOf moodPatterns lowerEntry).getD "neutral"
    energy := firstMatchOf energyPatterns lowerEntry
    symptoms :=
      (symptomPatterns.filter fun p => testPattern p.2 lowerEntry).map
        Prod.fst
    timestamp := now }

/-! ## Enrichment cache (`analysisCache`, `CACHE_TTL`, cleanup interval) -/

/-- `CACHE_TTL = 30 * 60 * 1000` milliseconds. -/
def CACHE_TTL : ℕ := 30 * 60 * 1000

/-- One `analysisCache` entry: `{ analysis, timestamp: Date.now() }`. -/
structure CacheEntry (α : Type) where
  analysis : α
  timestamp : ℕ
  deriving Repr

/-- The `analysisCache` `Map`, as an association list in insertion
order. -/
abbrev Cache (α : Type) : Type :=
  List (String × CacheEntry α)

/-- JS `Map.prototype.set`: replace the value of an existing key in
place, else append. -/
def mapSet {α : Type} : Cache α → String → CacheEntry α → Cache α
  | [], k, v => [(k, v)]
  | (k', v') :: rest, k, v =>
    if k' = k then (k, v) :: rest else (k', v') :: mapSet rest k v

/-- The cache-hit test at the top of `getAIAnalysis`:
`cachedResult && Date.now() - cachedResult.timestamp < CACHE_TTL`
returns the stored analysis, otherwise a miss. -/
def cacheGet {α : Type} (c : Cache α) (key : String) (now : ℕ) : Option α :=
  match c.lookup key with
  | some e => if now - e.timestamp < CACHE_TTL then some e.analysis else none
  | none => none

/-- `analysisCache.set(cacheKey, { analysis, timestamp: Date.now() })`. -/
def cacheSet {α : Type} (c : Cache α) (key : String) (a : α) (now : ℕ) :
    Cache α :=
  mapSet c key ⟨a, now⟩

/-- The periodic cleanup (`setInterval` every `CACHE_TTL`): delete every
entry with `now - value.timestamp > CACHE_TTL`. -/
def cacheSweep {α : Type} (c : Cache α) (now : ℕ) : Cache α :=
  c.filter (fun p => ¬ CACHE_TTL < now - p.2.timestamp)

/-! ## AI enrichment client (`getAIAnalysis`, cache-bearing revision) -/

/-- JSON values, the shape of parsed `response.content`. -/
inductive Json
  | null
  | bool (b : Bool)
  | num (q : ℚ)
  | str (s : String)
  | arr (elems : List Json)
  | obj (fields : List (String × Json))

/-- Is a JSON value a string? -/
def Json.isStr : Json → Bool
  | .str _ => true
  | _ => false

/-- Field lookup on a JSON object (`none` on other shapes). -/
def Json.field : Json → String → Option Json
  | .obj fields, name => fields.lookup name
  | _, _ => none

/-- Does `j` carry field `name` holding an array of strings?  (The shape
the specification requires of `insights` and `suggestions`.) -/
def hasStringArrayField (j : Json) (name : String) : Bool :=
  match j.field name with
  | some (.arr elems) => elems.all Json.isStr
  | _ => false

/-- Outcome of the external `model.invoke` call: the call throws
(timeout/network error), or returns content that fails `JSON.parse`
(modelled `content none`), or returns content parsing to a JSON value. -/
inductive InvokeOutcome
  | err
  | content (parsed : Option Json)

/-- `getAIAnalysis(entry, metrics)` of the cache-bearing revision, with
the external call abstracted as an `InvokeOutcome` and the cache and
clock passed explicitly.  `key` stands for the fingerprint
`` `${entry}_${JSON.stringify(metrics)}` ``.  Order of operations as in
the source: cache check, then API-key check (thrown uncaught with its own
message), then the call; any error inside the `try` is re-thrown as
`'AI analysis failed'`; a parsed response is cached before being
returned.  Note the source performs no shape validation on the parsed
value. -/
def getAIAnalysis (cache : Cache Json) (key : String) (now : ℕ)
    (hasApiKey : Bool) (call : InvokeOutcome) :
    Except String Json × Cache Json :=
  match cacheGet cache key now with
  | some a => (.ok a, cache)
  | none =>
    if !hasApiKey then (.error "OpenAI API key not configured", cache)
    else
      match call with
      | .err => (.error "AI analysis failed", cache)
      | .content none => (.error "AI analysis failed", cache)
      | .content (some j) => (.ok j, cacheSet cache key j now)

/-! ## Report analysis (`src/app/reports/page.js`) -/

/-- JS `x || 0` on an optional number (`0` itself is falsy and also maps
to `0`). -/
def jsOrZero (o : Option ℚ) : ℚ :=
  o.getD 0

/-- JS `x || 'normal'` on an optional quality label (the falsy empty
string is not modelled). -/
def jsQualityLabel (o : Option String) : String :=
  o.getD "normal"

/-- `calculateConsistencyScore(data, targetValue)`: below 2 data points
the score is `0`; with a target, subtract 10 × the mean absolute
deviation from the target; without one, subtract the mean of
10 × |day-to-day difference|; in both cases `Math.round` first, then
clamp to `[0, 100]` via `Math.max(0, Math.min(100, …))`. -/
def calculateConsistencyScore (data : List ℚ) (targetValue : Option ℚ) :
    ℤ :=
  if data.length < 2 then 0
  else
    let daysInRange : ℚ := data.length
    match targetValue with
    | some target =>
      let avgDeviation := (data.map fun v => |v - target|).sum / daysInRange
      max 0 (min 100 (round ((100 : ℚ) - avgDeviation * 10)))
    | none =>
      let variance :=
        ((data.zip data.tail).map fun q => |q.2 - q.1| * 10).sum / daysInRange
      max 0 (min 100 (round ((100 : ℚ) - variance)))

/-- The per-entry inputs `analyzeSleepPatterns` reads:
`entry.metrics?.sleep` and `entry.metrics?.sleepQuality`. -/
structure SleepEntry where
  sleep : Option ℚ
  sleepQuality : Option String
  deriving Repr

/-- The `value` column of `sleepData`: `entry.metrics?.sleep || 0`. -/
def sleepValues (entries : List SleepEntry) : List ℚ :=
  entries.map fun e => jsOrZero e.sleep

/-- `qualityMap[q] || 70`, with `qualityMap = {good: 100, normal: 70,
poor: 40}`. -/
def qualityMap (q : String) : ℚ :=
  if q = "good" then 100
  else if q = "normal" then 70
  else if q = "poor" then 40
  else 70

/-- The `consistency` field of `analyzeSleepPatterns(entries)`:
`calculateConsistencyScore(sleepData, 8)` (`0` on no entries). -/
def analyzeSleep_consistency (entries : List SleepEntry) : ℤ :=
  if entries.isEmpty then 0
  else calculateConsistencyScore (sleepValues entries) (some 8)

/-- The `qualityScore` field of `analyzeSleepPatterns(entries)`:
the rounded mean of the mapped quality labels (`0` on no entries). -/
def analyzeSleep_qualityScore (entries : List SleepEntry) : ℤ :=
  if entries.isEmpty then 0
  else
    round ((entries.map fun e =>
      qualityMap (jsQualityLabel e.sleepQuality)).sum / (entries.length : ℚ))

/-- The `sleepScore` computed inside `calculateHealthScore`:
`(consistency || 0) * 0.4 + (qualityScore || 0) * 0.6`. -/
def healthSleepScore (entries : List SleepEntry) : ℚ :=
  (analyzeSleep_consistency entries : ℚ) * 0.4
    + (analyzeSleep_qualityScore entries : ℚ) * 0.6

/-! ## Batch aggregation (batch `POST` handler helpers) -/

/-- The metric fields of one per-entry analysis that the aggregation
step reads; every field may be absent. -/
structure BatchMetrics where
  sleep : Option ℚ
  exercise : Option ℚ
  mood : Option String
  energy : Option String
  symptoms : List String
  deriving Repr

/-- One element of `results`: an error descriptor (`r.error` set) or a
successful analysis, whose `metrics` object may formally be absent
(`analysis.metrics || {}`). -/
inductive EntryResult
  | failure
  | success (metrics : Option BatchMetrics)
  deriving Repr

/-- `!r.error`. -/
def EntryResult.isSuccess : EntryResult → Bool
  | .failure => false
  | .success _ => true

/-- The `metrics` of the successful analyses, in order
(`results.filter(r => !r.error)`). -/
def successMetrics (results : List EntryResult) : List (Option BatchMetrics) :=
  results.filterMap fun r =>
    match r with
    | .failure => none
    | .success m => some m

/-- The occurrence counts built by `findMostCommon`'s `reduce`, keyed in
first-seen order (JS object insertion order for string keys). -/
def countsIn (arr : List String) : List (String × ℕ) :=
  arr.foldl
    (fun acc v =>
      if acc.any fun p => p.1 = v then
        acc.map fun p => if p.1 = v then (p.1, p.2 + 1) else p
      else acc ++ [(v, 1)])
    []

/-- `findMostCommon(arr)`: values sorted by descending count; the JS
sort is stable, so ties keep first-seen order. -/
def findMostCommon (arr : List String) : List String :=
  ((countsIn arr).mergeSort fun a b => b.2 ≤ a.2).map Prod.fst

/-- An empty `metrics` object (`{}`). -/
def emptyMetrics : BatchMetrics :=
  ⟨none, none, none, none, []⟩

/-- The aggregate averages (`calculateAverageMetrics`'s non-null
result). -/
structure AverageMetrics where
  averageSleep : ℚ
  averageExercise : ℚ
  commonSymptoms : List String
  predominantMood : Option String
  predominantEnergy : Option String
  deriving Repr

/-- `calculateAverageMetrics(analyses)`: `null` for an empty success
list; otherwise means of `sleep`/`exercise` with absent values counted
as `0`, ranked symptoms, and the top mood/energy (defaults `'neutral'` /
`'medium'`). -/
def calculateAverageMetrics (analyses : List (Option BatchMetrics)) :
    Option AverageMetrics :=
  if analyses.length = 0 then none
  else
    let ms := analyses.map fun o => o.getD emptyMetrics
    some
      { averageSleep :=
          (ms.map fun m => jsOrZero m.sleep).sum / (analyses.length : ℚ)
        averageExercise :=
          (ms.map fun m => jsOrZero m.exercise).sum / (analyses.length : ℚ)
        commonSymptoms := findMostCommon (ms.flatMap fun m => m.symptoms)
        predominantMood :=
          (findMostCommon (ms.map fun m => m.mood.getD "neutral")).head?
        predominantEnergy :=
          (findMostCommon (ms.map fun m => m.energy.getD "medium")).head? }

/-- The three trend directions reported by `analyzeTrends`. -/
structure Trends where
  sleep : Trend
  exercise : Trend
  mood : Trend
  deriving Repr

/-- The `moodValues` lookup `{positive: 3, neutral: 2, negative: 1}`
(`none` for a key not in the table). -/
def moodValues (m : String) : Option ℚ :=
  if m = "positive" then some 3
  else if m = "neutral" then some 2
  else if m = "negative" then some 1
  else none

/-- `analyzeMoodTrend(moods)`: drop unmapped values, map through
`moodValues`, and classify with `calculateTrend`. -/
def analyzeMoodTrend (moods : List (Option String)) : Trend :=
  calculateTrend (moods.filterMap fun m => m.bind moodValues)

/-- `analyzeTrends(analyses)`: `null` below 2 successes; otherwise
trends of the sleep, exercise and mood series.  (The source "sorts" by a
`timestamp` field that is absent from the result objects, so the
comparator is `NaN` for every pair and the order is unchanged.) -/
def analyzeTrends (analyses : List (Option BatchMetrics)) : Option Trends :=
  if analyses.length < 2 then none
  else
    some
      { sleep := calculateTrend (analyses.map fun o =>
          jsOrZero (o.bind fun m => m.sleep))
        exercise := calculateTrend (analyses.map fun o =>
          jsOrZero (o.bind fun m => m.exercise))
        mood := analyzeMoodTrend (analyses.map fun o =>
          o.bind fun m => m.mood) }

/-- The `aggregateMetrics` object assembled by the batch `POST` handler
(`Promise.all` yields one result per entry, so `totalEntries`, which the
source takes from `entries.length`, equals `results.length`). -/
structure AggregateMetrics where
  totalEntries : ℕ
  successfulAnalyses : ℕ
  failedAnalyses : ℕ
  averageMetrics : Option AverageMetrics
  trends : Option Trends
  deriving Repr

/-- Assembly of `aggregateMetrics` from the per-entry results. -/
def aggregateResults (results : List EntryResult) : AggregateMetrics :=
  { totalEntries := results.length
    successfulAnalyses := (successMetrics results).length
    failedAnalyses := (results.filter fun r => !r.isSuccess).length
    averageMetrics := calculateAverageMetrics (successMetrics results)
    trends := analyzeTrends (successMetrics results) }

section TrendTheorems

/-- C1: `calculateTrend` classifies by the floor-half split and the
percent-change formula with thresholds ±10, series of fewer than 2 points
are `stable`, and the four cited example series classify as stated. -/
theorem C1_calculateTrend :
    (∀ v : List ℚ, v.length < 2 → calculateTrend v = Trend.stable) ∧
    (∀ v : List ℚ, 2 ≤ v.length →
      average (v.take (v.length / 2)) ≠ 0 →
      calculateTrend v =
        if changePct v > 10 then Trend.improving
        else if changePct v < -10 then Trend.declining
        else Trend.stable) ∧
    calculateTrend [6, 6, 6, 9, 9, 9] = Trend.improving ∧
    calculateTrend [9, 9, 9, 6, 6, 6] = Trend.declining ∧
    calculateTrend [7, 7, 7, 7] = Trend.stable ∧
    (∀ x : ℚ, calculateTrend [x] = Trend.stable) := by
  refine ⟨?_, ?_, by norm_num [calculateTrend, average],
    by norm_num [calculateTrend, average],
    by norm_num [calculateTrend, average], fun x => rfl⟩
  · intro v hv
    simp [calculateTrend, hv]
  · intro v hv hne
    have hlt : ¬ v.length < 2 := by omega
    simp only [calculateTrend, changePct]
    rw [if_neg hlt, if_neg hne]

/-- Witness for C1: the formula conjunct applied at the concrete series
`[2, 2, 4, 4]`. -/
theorem C1_witness : calculateTrend [2, 2, 4, 4] = Trend.improving := by
  rw [C1_calculateTrend.2.1 [2, 2, 4, 4] (by norm_num)
    (by norm_num [average])]
  norm_num [changePct, average]

/-- C9: `calculateTrend` is total; when the earlier half's mean is `0`
and the later half's is positive the (infinite) percent change classifies
as `improving`, and an all-zero series (percent change `NaN`) is
`stable`. -/
theorem C9_calculateTrend_zero :
    (∀ v : List ℚ, 2 ≤ v.length →
      average (v.take (v.length / 2)) = 0 →
      0 < average (v.drop (v.length / 2)) →
      calculateTrend v = Trend.improving) ∧
    (∀ v : List ℚ, (∀ x ∈ v, x = 0) → calculateTrend v = Trend.stable) := by
  constructor
  · intro v hv h0 hpos
    have hlt : ¬ v.length < 2 := by omega
    simp only [calculateTrend]
    rw [if_neg hlt, if_pos h0, if_pos hpos]
  · intro v hz
    by_cases hlen : v.length < 2
    · simp [calculateTrend, hlen]
    · have h1 : average (v.take (v.length / 2)) = 0 := by
        have : (v.take (v.length / 2)).sum = 0 :=
          List.sum_eq_zero fun x hx => hz x (List.mem_of_mem_take hx)
        simp [average, this]
      have h2 : average (v.drop (v.length / 2)) = 0 := by
        have : (v.drop (v.length / 2)).sum = 0 :=
          List.sum_eq_zero fun x hx => hz x (List.mem_of_mem_drop hx)
        simp [average, this]
      simp only [calculateTrend]
      rw [if_neg hlen, if_pos h1, if_neg (by rw [h2]; exact lt_irrefl 0),
        if_neg (by rw [h2]; exact lt_irrefl 0)]

/-- Witness for C9: the zero-mean conjuncts applied at `[0, 0, 1, 1]`
and `[0, 0, 0]`. -/
theorem C9_witness :
    calculateTrend [0, 0, 1, 1] = Trend.improving ∧
    calculateTrend [0, 0, 0] = Trend.stable :=
  ⟨C9_calculateTrend_zero.1 [0, 0, 1, 1] (by norm_num)
      (by norm_num [average]) (by norm_num [average]),
   C9_calculateTrend_zero.2 [0, 0, 0] (by norm_num)⟩

end TrendTheorems

section RateLimiterTheorems

/-- The running minimum computed by `jsMinList` is a member of any
nonempty list. -/
theorem foldl_min_mem (x : ℕ) (xs : List ℕ) : xs.foldl Nat.min x ∈ x :: xs := by
  induction xs generalizing x with
  | nil => simp
  | cons y ys ih =>
    have h := ih (Nat.min x y)
    have hxy : Nat.min x y = x ∨ Nat.min x y = y := by
      show min x y = x ∨ min x y = y
      rw [Nat.min_def]
      split <;> simp
    have hfold : List.foldl Nat.min x (y :: ys)
        = List.foldl Nat.min (Nat.min x y) ys := rfl
    rw [hfold]
    rcases List.mem_cons.1 h with h' | h'
    · rw [h']
      rcases hxy with hm | hm <;> rw [hm] <;> simp
    · simp [h']

/-- `jsMinList` of a nonempty list is one of its elements. -/
theorem jsMinList_mem {l : List ℕ} (h : l ≠ []) : jsMinList l ∈ l := by
  cases l with
  | nil => exact absurd rfl h
  | cons x xs => exact foldl_min_mem x xs

/-- C2: for a caller whose stored window already lies inside the trailing
60-second cooldown, a request is admitted (and its timestamp appended)
exactly when fewer than 10 timestamps are retained; a denied request
leaves the log unchanged and reports
`retryAfter = ceil((COOLDOWN - (now - oldest)) / 1000) > 0`, the seconds
until the oldest retained timestamp leaves the window.  Consequently, for
eleven requests at instants `0..10` ms the first ten are admitted and the
eleventh is denied with `retryAfter = 60`. -/
theorem C2_rate_limiter :
    (∀ ts now, (∀ t ∈ ts, t ≤ now ∧ now - t < COOLDOWN) →
      (((admitRequest ts now).allowed = true ↔ ts.length < RATE_LIMIT) ∧
       ((admitRequest ts now).allowed = true →
         (admitRequest ts now).log = ts ++ [now]) ∧
       ((admitRequest ts now).allowed = false →
         (admitRequest ts now).log = ts))) ∧
    (∀ ts now, (∀ t ∈ ts, t ≤ now ∧ now - t < COOLDOWN) →
      (admitRequest ts now).allowed = false →
      (admitRequest ts now).retryAfter
          = (COOLDOWN - (now - jsMinList ts) + 999) / 1000 ∧
      0 < (admitRequest ts now).retryAfter) ∧
    (runAdmits [0, 1, 2, 3, 4, 5, 6, 7, 8, 9, 10]).1
        = [true, true, true, true, true, true, true, true, true, true,
           false] ∧
    (runAdmits [0, 1, 2, 3, 4, 5, 6, 7, 8, 9, 10]).2
        = [0, 1, 2, 3, 4, 5, 6, 7, 8, 9] ∧
    (admitRequest [0, 1, 2, 3, 4, 5, 6, 7, 8, 9] 10).retryAfter = 60 := by
  have hfil : ∀ (ts : List ℕ) (now : ℕ),
      (∀ t ∈ ts, t ≤ now ∧ now - t < COOLDOWN) →
      ts.filter (fun t => now - t < COOLDOWN) = ts := by
    intro ts now h
    exact List.filter_eq_self.2 fun t ht => by
      simpa using (h t ht).2
  refine ⟨?_, ?_, by decide, by decide, by decide⟩
  · intro ts now h
    simp only [admitRequest, hfil ts now h]
    split_ifs with hc
    · refine ⟨by simpa using hc, by simp, fun _ => rfl⟩
    · exact ⟨by simpa using hc, fun _ => rfl, by simp⟩
  · intro ts now h hdeny
    have hc : RATE_LIMIT ≤ ts.length := by
      by_contra hc
      simp only [admitRequest, hfil ts now h] at hdeny
      rw [if_neg hc] at hdeny
      simp at hdeny
    have hne : ts ≠ [] := by
      intro he
      rw [he] at hc
      simp [RATE_LIMIT] at hc
    have hmem := jsMinList_mem hne
    have hwin := (h _ hmem).2
    simp only [admitRequest, hfil ts now h]
    rw [if_pos hc]
    refine ⟨rfl, ?_⟩
    simp only [COOLDOWN] at hwin ⊢
    omega

/-- Witness for C2: the admission conjunct at a window of one timestamp,
and the denial conjunct at a full window of ten. -/
theorem C2_witness :
    (admitRequest [5] 100).allowed = true ∧
    (admitRequest [0, 0, 0, 0, 0, 0, 0, 0, 0, 0] 100).retryAfter
        = (COOLDOWN - (100 - 0) + 999) / 1000 := by
  constructor
  · exact ((C2_rate_limiter.1 [5] 100 (by decide)).1).mpr (by decide)
  · exact (C2_rate_limiter.2.1 [0, 0, 0, 0, 0, 0, 0, 0, 0, 0] 100
      (by decide) (by decide)).1

end RateLimiterTheorems

section RetryTheorems

/-- C3: with `maxRetries = 2` the wrapper makes at most two sequential
attempts, sleeps `2 ^ attempt` seconds after each failed attempt
(attempt indices starting at 0), re-raises the second failure unchanged
when both attempts fail — even when a third call would have succeeded —
and only ever returns values the enrichment oracle itself produced. -/
theorem C3_retryAnalysis :
    ∀ (ε α : Type) (oracle : ℕ → Except ε α),
      (retryAnalysis oracle 2).calls ≤ 2 ∧
      (∀ e0 e1, oracle 0 = .error e0 → oracle 1 = .error e1 →
        retryAnalysis oracle 2 = ⟨.error (some e1), 2, [1, 2]⟩) ∧
      (∀ a, oracle 0 = .ok a → retryAnalysis oracle 2 = ⟨.ok a, 1, []⟩) ∧
      (∀ e0 a, oracle 0 = .error e0 → oracle 1 = .ok a →
        retryAnalysis oracle 2 = ⟨.ok a, 2, [1]⟩) ∧
      (∀ a, (retryAnalysis oracle 2).result = .ok a →
        ∃ i, i < 2 ∧ oracle i = .ok a) := by
  intro ε α oracle
  refine ⟨?_, ?_, ?_, ?_, ?_⟩
  · rcases h0 : oracle 0 with e0 | a0
    · rcases h1 : oracle 1 with e1 | a1 <;>
        simp [retryAnalysis, retryLoop, h0, h1]
    · simp [retryAnalysis, retryLoop, h0]
  · intro e0 e1 h0 h1
    simp [retryAnalysis, retryLoop, h0, h1]
  · intro a h0
    simp [retryAnalysis, retryLoop, h0]
  · intro e0 a h0 h1
    simp [retryAnalysis, retryLoop, h0, h1]
  · intro a ha
    rcases h0 : oracle 0 with e0 | a0
    · rcases h1 : oracle 1 with e1 | a1
      · simp [retryAnalysis, retryLoop, h0, h1] at ha
      · refine ⟨1, by omega, ?_⟩
        simp only [retryAnalysis, retryLoop, h0, h1] at ha
        rw [h1]
        simpa using ha
    · refine ⟨0, by omega, ?_⟩
      simp only [retryAnalysis, retryLoop, h0] at ha
      rw [h0]
      simpa using ha

/-- Witness for C3: an oracle that fails on attempts 0 and 1 and would
succeed on a third call still propagates the second failure. -/
theorem C3_witness :
    retryAnalysis
        (fun i => if i = 0 then .error "first failure"
          else if i = 1 then .error "second failure"
          else .ok "third call succeeds") 2
      = ⟨.error (some "second failure"), 2, [1, 2]⟩ :=
  (C3_retryAnalysis String String
      (fun i => if i = 0 then .error "first failure"
        else if i = 1 then .error "second failure"
        else .ok "third call succeeds")).2.1
    "first failure" "second failure" rfl rfl

end RetryTheorems

section CacheTheorems

/-- After `mapSet c k v`, looking up `k` finds exactly `v`. -/
theorem lookup_mapSet_self {α : Type} (c : Cache α) (k : String)
    (v : CacheEntry α) : (mapSet c k v).lookup k = some v := by
  induction c with
  | nil => simp [mapSet, List.lookup]
  | cons p rest ih =>
    obtain ⟨k', v'⟩ := p
    by_cases h : k' = k
    · simp [mapSet, h, List.lookup]
    · have hne : (k == k') = false := by
        simp only [beq_eq_false_iff_ne, ne_eq]
        exact fun he => h he.symm
      simp [mapSet, if_neg h, List.lookup, hne, ih]

/-- C4: a stored analysis is returned as a hit by any lookup strictly
less than `CACHE_TTL` (30 min) after the store; once the entry's age
reaches the TTL the lookup is a miss; a hit always comes from an entry
younger than the TTL; and the periodic sweep keeps exactly the entries
whose age does not exceed the TTL. -/
theorem C4_cache :
    (∀ (α : Type) (c : Cache α) k a tput tget,
      tget - tput < CACHE_TTL →
      cacheGet (cacheSet c k a tput) k tget = some a) ∧
    (∀ (α : Type) (c : Cache α) k a tput tget,
      CACHE_TTL ≤ tget - tput →
      cacheGet (cacheSet c k a tput) k tget = none) ∧
    (∀ (α : Type) (c : Cache α) k now a, cacheGet c k now = some a →
      ∃ e, c.lookup k = some e ∧ now - e.timestamp < CACHE_TTL ∧
        e.analysis = a) ∧
    (∀ (α : Type) (c : Cache α) now p, p ∈ cacheSweep c now →
      now - p.2.timestamp ≤ CACHE_TTL) ∧
    (∀ (α : Type) (c : Cache α) now p, p ∈ c →
      now - p.2.timestamp ≤ CACHE_TTL → p ∈ cacheSweep c now) := by
  refine ⟨?_, ?_, ?_, ?_, ?_⟩
  · intro α c k a tput tget hage
    simp only [cacheGet, cacheSet, lookup_mapSet_self]
    rw [if_pos hage]
  · intro α c k a tput tget hage
    simp only [cacheGet, cacheSet, lookup_mapSet_self]
    rw [if_neg (by omega)]
  · intro α c k now a h
    simp only [cacheGet] at h
    split at h
    next e heq =>
      split at h
      next hage => exact ⟨e, heq, hage, Option.some.inj h⟩
      next => exact absurd h (by simp)
    next => exact absurd h (by simp)
  · intro α c now p hp
    have := (List.mem_filter.1 hp).2
    simp only [decide_eq_true_eq] at this
    omega
  · intro α c now p hp hage
    exact List.mem_filter.2 ⟨hp, by simp only [decide_eq_true_eq]; omega⟩

/-- Witness for C4: a concrete round-trip inside and at the TTL. -/
theorem C4_witness :
    cacheGet (cacheSet ([] : Cache String) "key" "analysis" 1000) "key"
        1001000 = some "analysis" ∧
    cacheGet (cacheSet ([] : Cache String) "key" "analysis" 1000) "key"
        1801000 = none :=
  ⟨C4_cache.1 String [] "key" "analysis" 1000 1001000 (by norm_num [CACHE_TTL]),
   C4_cache.2.1 String [] "key" "analysis" 1000 1801000
     (by norm_num [CACHE_TTL])⟩

end CacheTheorems

section EnrichmentTheorems

/-- A parsed response carrying neither an `insights` nor a `suggestions`
array. -/
def unvalidatedResponse : Json :=
  Json.obj [("mood", Json.num 1)]

/-- C8 counterexample: on a cache miss with the key configured, a
response whose content parses as JSON but contains neither an `insights`
array nor a `suggestions` array is nevertheless returned as a successful
analysis — and stored in the cache.  The claimed shape validation does
not exist in the cache-bearing revision. -/
theorem C8_counterexample :
    (getAIAnalysis [] "k" 0 true
        (.content (some unvalidatedResponse))).1 = .ok unvalidatedResponse ∧
    (getAIAnalysis [] "k" 0 true
        (.content (some unvalidatedResponse))).2
      = [("k", ⟨unvalidatedResponse, 0⟩)] ∧
    hasStringArrayField unvalidatedResponse "insights" = false ∧
    hasStringArrayField unvalidatedResponse "suggestions" = false :=
  ⟨rfl, rfl, rfl, rfl⟩

/-- C8 (amended): on a cache miss with the key configured, the
enrichment call fails exactly when the external call errors or the
returned content does not parse as JSON; content parsing to any JSON
value at all — validated or not — is returned as the successful analysis
and written into the cache. -/
theorem C8_enrichment_errors :
    ∀ (cache : Cache Json) key now call,
      cacheGet cache key now = none →
      (((∃ msg, (getAIAnalysis cache key now true call).1 = .error msg) ↔
        (call = .err ∨ call = .content none)) ∧
       (∀ j, call = .content (some j) →
        getAIAnalysis cache key now true call
          = (.ok j, cacheSet cache key j now))) := by
  intro cache key now call hmiss
  constructor
  · constructor
    · rintro ⟨msg, hmsg⟩
      cases call with
      | err => exact Or.inl rfl
      | content p =>
        cases p with
        | none => exact Or.inr rfl
        | some j =>
          simp only [getAIAnalysis, hmiss] at hmsg
          exact absurd hmsg (by simp)
    · rintro (h | h) <;> subst h <;>
        exact ⟨"AI analysis failed", by simp [getAIAnalysis, hmiss]⟩
  · intro j hj
    subst hj
    simp [getAIAnalysis, hmiss]

/-- Witness for C8: the amended theorem applied on an empty cache to a
failing external call. -/
theorem C8_witness :
    ∃ msg, (getAIAnalysis [] "k" 7 true .err).1 = .error msg :=
  ((C8_enrichment_errors [] "k" 7 .err rfl).1).mpr (Or.inl rfl)

end EnrichmentTheorems

section ExtractorTheorems

/-- A successful literal match leaves a suffix of the input. -/
theorem matchLit_suffix (lit : List Char) :
    ∀ s r, matchLit lit s = some r → r <:+ s := by
  induction lit with
  | nil =>
    intro s r h
    simp only [matchLit, Option.some.injEq] at h
    subst h
    exact List.suffix_refl s
  | cons c cs ih =>
    intro s r h
    cases s with
    | nil => simp [matchLit] at h
    | cons d ds =>
      simp only [matchLit] at h
      split at h
      · exact (ih ds r h).trans (List.suffix_cons d ds)
      · exact absurd h (by simp)

/-- `litK` outcomes are suffixes of the input. -/
theorem litK_suffix {w : String} {s r : List Char} (h : r ∈ litK w s) :
    r <:+ s := by
  simp only [litK] at h
  split at h
  next r' heq =>
    simp only [List.mem_singleton] at h
    subst h
    exact matchLit_suffix _ _ _ heq
  next => exact absurd h (List.not_mem_nil r)

/-- The rest component of every greedy split is a suffix of the input. -/
theorem greedySplits_suffix (p : Char → Bool) :
    ∀ (s : List Char) (q : List Char × List Char),
      q ∈ greedySplits p s → q.2 <:+ s := by
  intro s
  induction s with
  | nil =>
    intro q hq
    simp only [greedySplits, List.mem_singleton] at hq
    subst hq
    exact List.suffix_refl _
  | cons c cs ih =>
    intro q hq
    simp only [greedySplits] at hq
    split at hq
    · rcases List.mem_append.1 hq with hmem | hmem
      · rcases List.mem_map.1 hmem with ⟨q', hq', rfl⟩
        exact (ih q' hq').trans (List.suffix_cons c cs)
      · simp only [List.mem_singleton] at hmem
        subst hmem
        exact List.suffix_refl _
    · simp only [List.mem_singleton] at hq
      subst hq
      exact List.suffix_refl _

/-- On digit-free input, `\d+` has no outcome. -/
theorem digitSplits_eq_nil {s : List Char}
    (h : ∀ c ∈ s, digitChar c = false) : digitSplits s = [] := by
  cases s with
  | nil => rfl
  | cons c cs =>
    have hc : digitChar c = false := h c (List.mem_cons_self c cs)
    simp [digitSplits, greedySplits, hc]

/-- On digit-free input, the number capture has no outcome. -/
theorem numSplits_eq_nil {s : List Char}
    (h : ∀ c ∈ s, digitChar c = false) : numSplits s = [] := by
  simp [numSplits, digitSplits_eq_nil h]

/-- On digit-free input, the sleep pattern matches nowhere. -/
theorem sleepAt_eq_nil {s : List Char}
    (h : ∀ c ∈ s, digitChar c = false) : sleepAt s = [] := by
  simp only [sleepAt, List.flatMap_eq_nil_iff]
  intro r1 hr1 q2 hq2 r3 hr3 q4 hq4 q5 hq5
  have h1 : r1 <:+ s := by
    rcases List.mem_append.1 hr1 with hm | hm
    exacts [litK_suffix hm, litK_suffix hm]
  have h2 : q2.2 <:+ r1 := greedySplits_suffix wsChar r1 q2 hq2
  have h3 : r3 <:+ q2.2 := by
    rcases List.mem_append.1 hr3 with hm | hm
    · rcases List.mem_append.1 hm with hm' | hm'
      exacts [litK_suffix hm', litK_suffix hm']
    · simp only [List.mem_singleton] at hm
      subst hm
      exact List.suffix_refl _
  have h4 : q4.2 <:+ r3 := greedySplits_suffix wsChar r3 q4 hq4
  have hfree : ∀ c ∈ q4.2, digitChar c = false := fun c hc =>
    h c (h1.subset (h2.subset (h3.subset (h4.subset hc))))
  rw [numSplits_eq_nil hfree] at hq5
  exact absurd hq5 (List.not_mem_nil q5)

/-- On digit-free input, the leftmost-match scan for the sleep pattern
finds nothing. -/
theorem firstMatchIn_sleepAt_eq_none {s : List Char}
    (h : ∀ c ∈ s, digitChar c = false) : firstMatchIn sleepAt s = none := by
  induction s with
  | nil => decide
  | cons c cs ih =>
    have h1 : sleepAt (c :: cs) = [] := sleepAt_eq_nil h
    have h2 := ih fun d hd => h d (List.mem_cons_of_mem c hd)
    simp [firstMatchIn, h1, h2]

/-- C5 counterexample: the entry `"slept 5 hours then slept 7 hours"`
contains the substring `"slept 7 hours"`, yet the extractor uses the
first (leftmost) occurrence of the sleep pattern and returns `5`, not
`7` — refuting the claim's universal "every text containing
`slept 7 hours` yields 7". -/
theorem C5_counterexample :
    (∃ pre post : String,
      "slept 5 hours then slept 7 hours" = pre ++ "slept 7 hours" ++ post) ∧
    (analyzeLocally "slept 5 hours then slept 7 hours" 0).sleep
        = some 5 ∧
    (5 : ℚ) ≠ 7 := by
  refine ⟨⟨"slept 5 hours then ", "", by decide⟩, ?_, by norm_num⟩
  have hcap : firstMatchIn sleepAt
      "slept 5 hours then slept 7 hours".data = some ['5'] := by decide
  have h5 : parseFloat ['5'] = 5 := by
    have hdrop : List.dropWhile digitChar ['5'] = [] := by decide
    have htake : digitsToNat (List.takeWhile digitChar ['5']) = 5 := by
      decide
    simp [parseFloat, hdrop, htake]
  show (firstMatchIn sleepAt
      "slept 5 hours then slept 7 hours".data).map parseFloat = some 5
  rw [hcap]
  simp [h5]

/-- C5 (amended): the extractor returns the number captured by the
*first* occurrence of the sleep pattern — `"I slept 7 hours last night"`
yields `7` and `"I slept for 7.5 hours"` yields `7.5` — and when the
pattern matches nowhere (in particular on any digit-free text) the
result is `null`, not an error or a default number. -/
theorem C5_sleep_extraction :
    (analyzeLocally "I slept 7 hours last night" 0).sleep = some 7 ∧
    (analyzeLocally "I slept for 7.5 hours" 0).sleep = some (15 / 2) ∧
    (∀ (entry : String) (now : ℕ) (cap : List Char),
      firstMatchIn sleepAt entry.data = some cap →
      (analyzeLocally entry now).sleep = some (parseFloat cap)) ∧
    (∀ (entry : String) (now : ℕ),
      firstMatchIn sleepAt entry.data = none →
      (analyzeLocally entry now).sleep = none) ∧
    (∀ (entry : String) (now : ℕ),
      (∀ c ∈ entry.data, digitChar c = false) →
      (analyzeLocally entry now).sleep = none) := by
  refine ⟨?_, ?_, ?_, ?_, ?_⟩
  · have hcap : firstMatchIn sleepAt "I slept 7 hours last night".data
        = some ['7'] := by decide
    have h7 : parseFloat ['7'] = 7 := by
      have hdrop : List.dropWhile digitChar ['7'] = [] := by decide
      have htake : digitsToNat (List.takeWhile digitChar ['7']) = 7 := by
        decide
      simp [parseFloat, hdrop, htake]
    show (firstMatchIn sleepAt
        "I slept 7 hours last night".data).map parseFloat = some 7
    rw [hcap]
    simp [h7]
  · have hcap : firstMatchIn sleepAt "I slept for 7.5 hours".data
        = some ['7', '.', '5'] := by decide
    have h75 : parseFloat ['7', '.', '5'] = 15 / 2 := by
      have hdrop : List.dropWhile digitChar ['7', '.', '5'] = ['.', '5'] := by
        decide
      have htake : digitsToNat (List.takeWhile digitChar ['7', '.', '5'])
          = 7 := by decide
      have hfrac : digitsToNat ['5'] = 5 := by decide
      simp [parseFloat, hdrop, htake, hfrac]
      norm_num
    show (firstMatchIn sleepAt
        "I slept for 7.5 hours".data).map parseFloat = some (15 / 2)
    rw [hcap]
    simp [h75]
  · intro entry now cap h
    show (firstMatchIn sleepAt entry.data).map parseFloat
        = some (parseFloat cap)
    rw [h]
    rfl
  · intro entry now h
    show (firstMatchIn sleepAt entry.data).map parseFloat = none
    rw [h]
    rfl
  · intro entry now h
    show (firstMatchIn sleepAt entry.data).map parseFloat = none
    rw [firstMatchIn_sleepAt_eq_none h]
    rfl

/-- Witness for C5: the no-match and first-match conjuncts at concrete
entries. -/
theorem C5_witness :
    (analyzeLocally "no sleep number mentioned today" 0).sleep = none ∧
    (analyzeLocally "slept 9 hours" 0).sleep = some (parseFloat ['9']) :=
  ⟨C5_sleep_extraction.2.2.2.2 "no sleep number mentioned today" 0
      (by decide),
   C5_sleep_extraction.2.2.1 "slept 9 hours" 0 ['9'] (by decide)⟩

/-- C6: the energy keyword categories are tested in the fixed priority
order high, low, medium; the first matching category is the result; and
when none matches the result is `null` — no default is substituted. -/
theorem C6_energy_priority :
    ∀ (entry : String) (now : ℕ),
      ((analyzeLocally entry now).energy = some "high" ↔
        testPattern energyHighWords entry.toLower = true) ∧
      ((analyzeLocally entry now).energy = some "low" ↔
        (testPattern energyHighWords entry.toLower = false ∧
         testPattern energyLowWords entry.toLower = true)) ∧
      ((analyzeLocally entry now).energy = some "medium" ↔
        (testPattern energyHighWords entry.toLower = false ∧
         testPattern energyLowWords entry.toLower = false ∧
         testPattern energyMediumWords entry.toLower = true)) ∧
      ((analyzeLocally entry now).energy = none ↔
        (testPattern energyHighWords entry.toLower = false ∧
         testPattern energyLowWords entry.toLower = false ∧
         testPattern energyMediumWords entry.toLower = false)) := by
  intro entry now
  have he : (analyzeLocally entry now).energy
      = firstMatchOf energyPatterns entry.toLower := rfl
  cases hh : testPattern energyHighWords entry.toLower <;>
    cases hl : testPattern energyLowWords entry.toLower <;>
      cases hm : testPattern energyMediumWords entry.toLower <;>
        simp [he, firstMatchOf, energyPatterns, List.find?, hh, hl, hm]

end ExtractorTheorems

section ReportTheorems

/-- C7 counterexample: for the single-entry series `[8 hours]` the code
returns consistency `0` (the `data.length < 2` guard), while the
claimed formula `clamp(100 - 10 × meanAbsoluteDeviation)` gives `100`
(the deviation from the 8-hour target is zero). -/
theorem C7_counterexample :
    analyzeSleep_consistency [⟨some 8, some "normal"⟩] = 0 ∧
    max 0 (min 100 (round ((100 : ℚ)
      - (([(8 : ℚ)].map fun v => |v - 8|).sum / 1) * 10))) = 100 ∧
    (0 : ℤ) ≠ 100 := by
  refine ⟨?_, ?_, by norm_num⟩
  · simp [analyzeSleep_consistency, calculateConsistencyScore, sleepValues]
  · norm_num

/-- C7 (amended): for a series of at least two entries the sleep
consistency score is `100 − 10 × (mean absolute deviation from the
8-hour target)`, rounded to the nearest integer and clamped to
`[0, 100]`; a series of fewer than two entries scores `0`; the sleep
quality score is the rounded mean of the labels mapped
`good→100 / normal→70 / poor→40` (default `70`); and the sleep
sub-score of the health score is
`0.4 × consistency + 0.6 × quality`. -/
theorem C7_sleep_scores :
    (∀ entries : List SleepEntry, 2 ≤ entries.length →
      analyzeSleep_consistency entries
        = max 0 (min 100 (round ((100 : ℚ)
            - ((sleepValues entries).map fun v => |v - 8|).sum
                / (entries.length : ℚ) * 10)))) ∧
    (∀ entries : List SleepEntry, entries.length < 2 →
      analyzeSleep_consistency entries = 0) ∧
    (∀ entries : List SleepEntry, entries ≠ [] →
      analyzeSleep_qualityScore entries
        = round ((entries.map fun e =>
            qualityMap (jsQualityLabel e.sleepQuality)).sum
              / (entries.length : ℚ))) ∧
    (∀ entries : List SleepEntry,
      healthSleepScore entries
        = 0.4 * (analyzeSleep_consistency entries : ℚ)
          + 0.6 * (analyzeSleep_qualityScore entries : ℚ)) := by
  refine ⟨?_, ?_, ?_, ?_⟩
  · intro entries h2
    have hne : entries.isEmpty = false := by
      cases entries with
      | nil => simp at h2
      | cons e es => rfl
    have hlen : (sleepValues entries).length = entries.length := by
      simp [sleepValues]
    have hlt : ¬ (sleepValues entries).length < 2 := by omega
    simp only [analyzeSleep_consistency, hne, Bool.false_eq_true, if_false,
      calculateConsistencyScore, hlt, if_false, hlen]
    rw [if_neg (by omega : ¬ entries.length < 2)]
  · intro entries hlen
    cases entries with
    | nil => rfl
    | cons e es =>
      have hne : (e :: es).isEmpty = false := rfl
      have hlt : (sleepValues (e :: es)).length < 2 := by
        simpa [sleepValues] using hlen
      simp only [analyzeSleep_consistency, hne, Bool.false_eq_true, if_false,
        calculateConsistencyScore, hlt, if_true]
  · intro entries hne
    have h : entries.isEmpty = false := by
      cases entries with
      | nil => exact absurd rfl hne
      | cons e es => rfl
    simp only [analyzeSleep_qualityScore, h, Bool.false_eq_true, if_false]
  · intro entries
    simp only [healthSleepScore]
    ring

/-- Witness for C7: the guard conjunct at the empty series and the
formula conjunct at a two-entry series with zero deviation. -/
theorem C7_witness :
    analyzeSleep_consistency [] = 0 ∧
    analyzeSleep_consistency [⟨some 8, some "good"⟩, ⟨some 8, some "poor"⟩]
      = 100 := by
  constructor
  · exact C7_sleep_scores.2.1 [] (by norm_num)
  · rw [C7_sleep_scores.1 [⟨some 8, some "good"⟩, ⟨some 8, some "poor"⟩]
      (by norm_num)]
    norm_num [sleepValues, jsOrZero]

end ReportTheorems

section AggregateTheorems

/-- C10: when every per-entry result is a failure, the aggregate is
still a plain value: `averageMetrics` is `null` (empty success list),
`trends` is `null` (fewer than 2 successes), the success count is `0`
and the failure count equals the number of entries. -/
theorem C10_all_failures :
    ∀ results : List EntryResult, (∀ r ∈ results, r = .failure) →
      (aggregateResults results).averageMetrics = none ∧
      (aggregateResults results).trends = none ∧
      (aggregateResults results).successfulAnalyses = 0 ∧
      (aggregateResults results).failedAnalyses = results.length := by
  intro results h
  have hsm : successMetrics results = [] := by
    simp only [successMetrics, List.filterMap_eq_nil_iff]
    intro r hr
    rw [h r hr]
  have hfail : (results.filter fun r => !r.isSuccess) = results := by
    refine List.filter_eq_self.2 fun r hr => ?_
    rw [h r hr]
    rfl
  refine ⟨?_, ?_, ?_, ?_⟩
  · show calculateAverageMetrics (successMetrics results) = none
    rw [hsm]
    rfl
  · show analyzeTrends (successMetrics results) = none
    rw [hsm]
    rfl
  · show (successMetrics results).length = 0
    rw [hsm]
    rfl
  · show (results.filter fun r => !r.isSuccess).length = results.length
    rw [hfail]

/-- Witness for C10: a batch of two failed entries. -/
theorem C10_witness :
    (aggregateResults [.failure, .failure]).averageMetrics = none ∧
    (aggregateResults [.failure, .failure]).trends = none ∧
    (aggregateResults [.failure, .failure]).successfulAnalyses = 0 ∧
    (aggregateResults [.failure, .failure]).failedAnalyses = 2 :=
  C10_all_failures [.failure, .failure] (by
    intro r hr
    rcases List.mem_cons.1 hr with h | h
    · exact h
    · rcases List.mem_cons.1 h with h' | h'
      · exact h'
      · exact absurd h' (List.not_mem_nil r))

end AggregateTheorems
